import Mathlib

/-!
Verification of the subprocess lifecycle and command/event protocol layer of
the face-detection Electron application.  The definitions below are a shallow
embedding of the TypeScript module that supervises the Python worker process
(the revision with dual-environment switching): the message framer attached to
the worker's stdout, the command dispatcher with its correlation counter and
pending-command table, the readiness gate with its command queue, the model
profile selector, the close handler and the shutdown routine.
-/

namespace FaceApp

/-! ## JSON values and a model of JSON.parse

The framer calls the JavaScript builtin `JSON.parse` on each candidate line.
We model it with an executable recursive-descent parser for the JSON subset
the wire protocol uses (null, booleans, integer numbers, strings without
unicode escapes, arrays, objects).  Parsing fails (returns `none`) on any
malformed input, matching `JSON.parse` throwing a `SyntaxError`. -/

inductive Json where
  | null : Json
  | bool (b : Bool) : Json
  | num (n : Int) : Json
  | str (s : List Char) : Json
  | arr (elems : List Json) : Json
  | obj (fields : List (List Char × Json)) : Json

def isJsonWs (c : Char) : Bool :=
  c = ' ' || c = '\t' || c = '\n' || c = '\r'

def skipWs (cs : List Char) : List Char :=
  cs.dropWhile isJsonWs

/-- Parse the body of a JSON string literal (the opening quote already
consumed), returning the decoded characters and the input after the closing
quote.  Unicode escapes are not modelled (the protocol messages do not use
them); encountering one fails the parse. -/
def parseStringAux (acc : List Char) : List Char → Option (List Char × List Char)
  | [] => none
  | '"' :: rest => some (acc.reverse, rest)
  | '\\' :: c :: rest =>
    match c with
    | '"' => parseStringAux ('"' :: acc) rest
    | '\\' => parseStringAux ('\\' :: acc) rest
    | '/' => parseStringAux ('/' :: acc) rest
    | 'n' => parseStringAux ('\n' :: acc) rest
    | 't' => parseStringAux ('\t' :: acc) rest
    | 'r' => parseStringAux ('\r' :: acc) rest
    | 'b' => parseStringAux ('\x08' :: acc) rest
    | 'f' => parseStringAux ('\x0c' :: acc) rest
    | _ => none
  | '\\' :: [] => none
  | c :: rest => parseStringAux (c :: acc) rest

def parseNatNum (cs : List Char) : Option (Nat × List Char) :=
  let ds := cs.takeWhile Char.isDigit
  if ds.isEmpty then none
  else some (ds.foldl (fun n c => n * 10 + (c.toNat - 48)) 0, cs.dropWhile Char.isDigit)

/-- Reject a fractional or exponent part: the protocol only carries integer
numbers, so the model of `JSON.parse` covers exactly those. -/
def noFracOrExp (cs : List Char) : Bool :=
  match cs with
  | '.' :: _ => false
  | 'e' :: _ => false
  | 'E' :: _ => false
  | _ => true

def parseNumLit (cs : List Char) : Option (Json × List Char) :=
  match cs with
  | '-' :: rest =>
    (parseNatNum rest).bind fun p =>
      if noFracOrExp p.2 then some (Json.num (-(p.1 : Int)), p.2) else none
  | _ =>
    (parseNatNum cs).bind fun p =>
      if noFracOrExp p.2 then some (Json.num (p.1 : Int), p.2) else none

mutual

def parseVal : Nat → List Char → Option (Json × List Char)
  | 0, _ => none
  | fuel + 1, cs =>
    match skipWs cs with
    | 'n' :: 'u' :: 'l' :: 'l' :: rest => some (Json.null, rest)
    | 't' :: 'r' :: 'u' :: 'e' :: rest => some (Json.bool true, rest)
    | 'f' :: 'a' :: 'l' :: 's' :: 'e' :: rest => some (Json.bool false, rest)
    | '"' :: rest => (parseStringAux [] rest).map fun p => (Json.str p.1, p.2)
    | '[' :: rest =>
      (match skipWs rest with
       | ']' :: rest2 => some (Json.arr [], rest2)
       | _ => (parseElems fuel rest).map fun p => (Json.arr p.1, p.2))
    | '\x7b' :: rest =>
      (match skipWs rest with
       | '\x7d' :: rest2 => some (Json.obj [], rest2)
       | _ => (parseFields fuel rest).map fun p => (Json.obj p.1, p.2))
    | c :: rest => if c = '-' || c.isDigit then parseNumLit (c :: rest) else none
    | [] => none

def parseElems : Nat → List Char → Option (List Json × List Char)
  | 0, _ => none
  | fuel + 1, cs =>
    (parseVal fuel cs).bind fun v =>
      match skipWs v.2 with
      | ',' :: rest2 => (parseElems fuel rest2).map fun p => (v.1 :: p.1, p.2)
      | ']' :: rest2 => some ([v.1], rest2)
      | _ => none

def parseFields : Nat → List Char → Option (List (List Char × Json) × List Char)
  | 0, _ => none
  | fuel + 1, cs =>
    match skipWs cs with
    | '"' :: rest =>
      (parseStringAux [] rest).bind fun key =>
        match skipWs key.2 with
        | ':' :: rest2 =>
          (parseVal fuel rest2).bind fun v =>
            (match skipWs v.2 with
             | ',' :: rest4 => (parseFields fuel rest4).map fun p => ((key.1, v.1) :: p.1, p.2)
             | '\x7d' :: rest4 => some ([(key.1, v.1)], rest4)
             | _ => none)
        | _ => none
    | _ => none

end

/-- Model of the JavaScript builtin JSON.parse on a candidate line: the whole
input (up to trailing whitespace) must form one JSON value. -/
def jsonParse (cs : List Char) : Option Json :=
  match parseVal (cs.length + 1) cs with
  | some (v, rest) => if (skipWs rest).isEmpty then some v else none
  | none => none

/-! ## The message framer

Embeds the handler installed by `pyProc.stdout.on('data', ...)`: each chunk is
converted to a string, split on newlines, every line is trimmed, empty lines
are skipped, lines whose first character is not a brace or bracket are treated
as diagnostic noise, and the remaining candidate lines are fed to
`JSON.parse`; a parse failure is logged and the line is dropped.  The handler
keeps no state between chunks. -/

def jsTrim (cs : List Char) : List Char :=
  ((cs.dropWhile isJsonWs).reverse.dropWhile isJsonWs).reverse

def splitNlAux (acc : List Char) : List Char → List (List Char)
  | [] => [acc.reverse]
  | c :: rest =>
    if c = '\n' then acc.reverse :: splitNlAux [] rest
    else splitNlAux (c :: acc) rest

/-- Model of the JavaScript split on the newline character. -/
def splitNl (cs : List Char) : List (List Char) :=
  splitNlAux [] cs

/-- The stdout data handler applied to one chunk: the parsed messages it hands
to `handlePythonMessage`, in order. -/
def processChunk (data : List Char) : List Json :=
  (splitNl data).filterMap fun line =>
    let trimmed := jsTrim line
    if trimmed.isEmpty then none
    else if trimmed.head? = some '\x7b' || trimmed.head? = some '[' then
      jsonParse trimmed
    else none

/-- The framer over a whole sequence of chunk arrivals.  The source handler is
stateless across chunks: each `data` event is processed independently and no
partial line survives from one chunk to the next. -/
def framerChunks (chunks : List (List Char)) : List Json :=
  chunks.flatMap processChunk

/-! ## Commands, callbacks, and the observable actions of the orchestrator

Commands are the JavaScript objects passed to `sendCommandToPython`; the only
fields the embedded control flow inspects are `type` and `data.model`, so the
embedding records exactly those (the remaining payload plays no role in any
branch of the supervisor).  Callbacks are JavaScript closures; the embedding
identifies each one by a number and records invocations as actions. -/

structure CmdData where
  model : Option String
  deriving DecidableEq

structure JsCommand where
  type : String
  data : Option CmdData
  deriving DecidableEq

abbrev CbId := Nat

/-- Externally visible effects of one step of the orchestrator, in program
order: a successful `pyProc.stdin.write` of a command carrying its assigned
id, a callback invocation `callback(error, null)` or `callback(null,
response)`, a broadcast to the renderer windows, a forwarded worker event, or
an error dialog. -/
inductive Action where
  | write (cmd : JsCommand) (id : Int) : Action
  | invokeErr (cb : CbId) : Action
  | invokeOk (cb : CbId) : Action
  | notifyWindows : Action
  | forwardEvent : Action
  | showDialog : Action
  deriving DecidableEq

/-- The module-level mutable state of the supervisor: the process handle
(`pyProc !== null`; a live handle always has piped stdin because the process
is spawned with `stdio: ['pipe','pipe','pipe']`), the readiness flag, the
shutdown flag, the readiness-gate queue, the correlation counter, the
pending-command table (a JavaScript `Map`, modelled as an insertion-ordered
association list with unique keys), and the current environment profile. -/
structure PyState where
  pyProc : Bool
  pythonReady : Bool
  isShuttingDown : Bool
  commandQueue : List (JsCommand × CbId)
  commandCounter : Int
  pendingCommands : List (Int × CbId)
  currentModelType : String
  deriving DecidableEq

/-- State at module load after the first spawn: counter 0, empty queue and
table, `currentModelType = 'retinaface'`, worker spawned but not yet ready. -/
def initState : PyState :=
  { pyProc := true
    pythonReady := false
    isShuttingDown := false
    commandQueue := []
    commandCounter := 0
    pendingCommands := []
    currentModelType := "retinaface" }

/-! JavaScript `Map` operations on the association-list model. -/

def mapHas (m : List (Int × CbId)) (k : Int) : Bool :=
  m.any fun p => p.1 = k

def mapGet (m : List (Int × CbId)) (k : Int) : Option CbId :=
  (m.find? fun p => p.1 = k).map fun p => p.2

def mapSet (m : List (Int × CbId)) (k : Int) (v : CbId) : List (Int × CbId) :=
  if mapHas m k then m.map fun p => if p.1 = k then (k, v) else p
  else m ++ [(k, v)]

def mapDelete (m : List (Int × CbId)) (k : Int) : List (Int × CbId) :=
  m.filter fun p => !(p.1 = k)

/-! ## Environment profile selection -/

def listContainsSeq (sub : List Char) : List Char → Bool
  | [] => sub.isEmpty
  | c :: rest => sub.isPrefixOf (c :: rest) || listContainsSeq sub rest

/-- Model of JavaScript `s.includes(sub)`. -/
def jsIncludes (s sub : String) : Bool :=
  listContainsSeq sub.data s.data

/-- Model of JavaScript `s.toLowerCase()` (the model identifiers are ASCII, on
which the JavaScript and Lean character-level lowercasing agree). -/
def jsToLower (s : String) : String :=
  String.mk (s.data.map Char.toLower)

/-- Embeds `detectModelType`: a `start_processing` command with a truthy
`data.model` field selects `'retinaface'` when its lowercased model identifier
contains the substring `'retinaface'` and `'yolo'` otherwise; every other
command keeps the current model type.  (JavaScript truthiness of a string
field: `undefined` and the empty string are falsy.) -/
def detectModelType (command : JsCommand) (currentModelType : String) : String :=
  if command.type = "start_processing" then
    match command.data with
    | some d =>
      match d.model with
      | some m =>
        if m = "" then currentModelType
        else if jsIncludes (jsToLower m) "retinaface" then "retinaface" else "yolo"
      | none => currentModelType
    | none => currentModelType
  else currentModelType

/-- Embeds `restartPythonIfNeeded`: when the required model type equals the
current one and the worker is ready it returns `false` without touching any
state.  Otherwise it tears the old worker down (`exitPyProc`, which raises the
shutdown flag when a live process is present) and spawns a replacement; the
spawn and the subsequent wait for readiness are modelled as succeeding, so the
resulting state has a live, ready worker with the new model type.  The
counter, queue and pending table are untouched by a restart. -/
def restartPythonIfNeeded (st : PyState) (requiredModelType : String) :
    PyState × Bool :=
  if requiredModelType = st.currentModelType && st.pythonReady then (st, false)
  else
    ({ st with
        pyProc := true
        pythonReady := true
        isShuttingDown := st.isShuttingDown || (st.pyProc && !st.isShuttingDown)
        currentModelType := requiredModelType }, true)

/-! ## The command dispatcher -/

/-- The body of `sendCommandToPython` after the environment check (the
queueing branch and the try/catch transmission block).  `writeOk` tells
whether `pyProc.stdin.write` succeeds or throws on this call; the counter is
pre-incremented inside the try block before the write, so a throwing write
still consumes an id, invokes the callback synchronously with the error, and
skips the `pendingCommands.set`. -/
def sendCore (st : PyState) (command : JsCommand) (callback : Option CbId)
    (writeOk : Bool) : PyState × List Action :=
  if !(st.pyProc && st.pythonReady) then
    match callback with
    | some cb => ({ st with commandQueue := st.commandQueue ++ [(command, cb)] }, [])
    | none => (st, [])
  else
    let commandId := st.commandCounter + 1
    let st1 := { st with commandCounter := commandId }
    if writeOk then
      match callback with
      | some cb =>
        ({ st1 with pendingCommands := mapSet st1.pendingCommands commandId cb },
         [Action.write command commandId])
      | none => (st1, [Action.write command commandId])
    else
      match callback with
      | some cb => (st1, [Action.invokeErr cb])
      | none => (st1, [])

/-- Embeds `sendCommandToPython`: first the model-type check (restarting the
worker when the command requires the other environment), then the
queue-or-transmit body. -/
def sendCommandToPython (st : PyState) (command : JsCommand)
    (callback : Option CbId) (writeOk : Bool) : PyState × List Action :=
  let requiredModelType := detectModelType command st.currentModelType
  let st1 :=
    if requiredModelType ≠ st.currentModelType then
      (restartPythonIfNeeded st requiredModelType).1
    else st
  sendCore st1 command callback writeOk

/-! ## Handling messages from the worker -/

/-- Drain step of the `ready` branch: the queued entries are processed in
order by calling `sendCommandToPython` on each; `writeOks` supplies the
outcome of each write attempt (missing entries default to a successful
write). -/
def drainQueue (st : PyState) : List (JsCommand × CbId) → List Bool →
    PyState × List Action
  | [], _ => (st, [])
  | e :: rest, writeOks =>
    let r1 := sendCommandToPython st e.1 (some e.2) (writeOks.headD true)
    let r2 := drainQueue r1.1 rest writeOks.tail
    (r2.1, r1.2 ++ r2.2)

/-- Parsed worker messages as dispatched on by `handlePythonMessage`; a
`response` carries the (possibly absent or null) `id` field. -/
inductive PyMessage where
  | ready : PyMessage
  | response (id : Option Int) : PyMessage
  | event : PyMessage
  | errorMsg : PyMessage
  deriving DecidableEq

/-- Embeds `handlePythonMessage`.  The `ready` branch raises the readiness
flag, notifies the renderer windows, and drains the command queue through
`sendCommandToPython` (the drain re-transmits, so it runs against a live
handle; a `ready` can only be framed from the stdout of the live process).
The `response` branch fires and removes the matching pending callback when the
`id` is truthy and present in the table; otherwise the response is dropped.
The `event` branch forwards the event; the `error` branch only logs. -/
def handlePythonMessage (st : PyState) (msg : PyMessage) (writeOks : List Bool) :
    PyState × List Action :=
  match msg with
  | PyMessage.ready =>
    let st1 := { st with pythonReady := true }
    if st1.pyProc then
      let r := drainQueue { st1 with commandQueue := [] } st1.commandQueue writeOks
      (r.1, Action.notifyWindows :: r.2)
    else (st1, [Action.notifyWindows])
  | PyMessage.response id =>
    (match id with
     | some n =>
       if n ≠ 0 && mapHas st.pendingCommands n then
         match mapGet st.pendingCommands n with
         | some cb =>
           ({ st with pendingCommands := mapDelete st.pendingCommands n },
            [Action.invokeOk cb])
         | none =>
           ({ st with pendingCommands := mapDelete st.pendingCommands n }, [])
       else (st, [])
     | none => (st, []))
  | PyMessage.event => (st, [Action.forwardEvent])
  | PyMessage.errorMsg => (st, [])

/-- Embeds the `pyProc.on('close')` handler: possibly shows an error dialog
(for a positive exit code outside deliberate shutdown while the app still has
windows), then clears the readiness flag and the process handle.  Nothing
else is touched — in particular the pending-command table is left as it
was. -/
def handleCloseEvent (st : PyState) (code : Option Int) (appQuitting : Bool) :
    PyState × List Action :=
  let acts :=
    match code with
    | some c =>
      if c ≠ 0 && !st.isShuttingDown && 0 < c && !appQuitting then
        [Action.showDialog]
      else []
    | none => []
  ({ st with pythonReady := false, pyProc := false }, acts)

/-! ## The event-level step relation -/

/-- One externally triggered step of the orchestrator: a caller invoking
`sendCommandToPython`, a framed message arriving from the worker, or the
process `close` event. -/
inductive Ev where
  | send (cmd : JsCommand) (cb : Option CbId) (writeOk : Bool) : Ev
  | msg (m : PyMessage) (writeOks : List Bool) : Ev
  | closed (code : Option Int) (appQuitting : Bool) : Ev

def step (st : PyState) : Ev → PyState × List Action
  | Ev.send cmd cb writeOk => sendCommandToPython st cmd cb writeOk
  | Ev.msg m writeOks => handlePythonMessage st m writeOks
  | Ev.closed code appQuitting => handleCloseEvent st code appQuitting

/-- Run a sequence of steps, accumulating the actions in program order. -/
def run (st : PyState) : List Ev → PyState × List Action
  | [] => (st, [])
  | e :: rest =>
    let r1 := step st e
    let r2 := run r1.1 rest
    (r2.1, r1.2 ++ r2.2)

/-- Correlation ids of the successfully written commands in an action list, in
transmission order. -/
def writeIds (acts : List Action) : List Int :=
  acts.filterMap fun a =>
    match a with
    | Action.write _ id => some id
    | _ => none

def keysOf (m : List (Int × CbId)) : List Int :=
  m.map fun p => p.1

/-! ## Shutdown -/

def exitCommand : JsCommand := { type := "exit", data := none }

/-- Embeds `exitPyProc` together with the later firing of the two timers it
schedules, for a run in which the worker process never exits of its own
accord and nothing respawns a worker in between (the `will-quit` path).  The
synchronous body raises the shutdown flag, best-effort sends the `exit`
command, schedules the first 1000 ms timer, and then sets the module variable
`pyProc` to `null` and clears the readiness flag.  Each timer body re-reads
the module variable `pyProc` when it fires, i.e. it observes the state the
synchronous body left behind; the second timer is scheduled only if the first
one's guard passed.  `killed` is the child handle's `killed` flag at timer
time.  The returned list records the kill signals issued, in order. -/
def exitPyProc (st : PyState) (killed : Bool) : PyState × List Action × List String :=
  if st.pyProc then
    let sent := sendCommandToPython { st with isShuttingDown := true }
      exitCommand none true
    let stB := { sent.1 with pyProc := false, pythonReady := false }
    let fire1 := stB.pyProc && !killed
    let signals1 := if fire1 then ["SIGTERM"] else []
    let fire2 := fire1 && (stB.pyProc && !killed)
    let signals2 := if fire2 then ["SIGKILL"] else []
    (stB, (sent.2, signals1 ++ signals2))
  else (st, ([], []))

/-! ## The readiness-gate drain loop with re-entrant enqueues

The `ready` branch drains with a while loop that shifts the head entry and
sends it, re-reading the live queue on every iteration, so entries pushed onto
the tail while an earlier entry is being processed are handled within the
same loop.  `reentrant e` gives the entries enqueued while entry `e` is being
processed, and the fuel bounds the number of iterations; the output lists the
entries in the order the loop transmitted them. -/
def drainLoop (reentrant : (JsCommand × CbId) → List (JsCommand × CbId)) :
    Nat → List (JsCommand × CbId) → List (JsCommand × CbId)
  | _, [] => []
  | 0, _ :: _ => []
  | fuel + 1, e :: rest => e :: drainLoop reentrant fuel (rest ++ reentrant e)

/-- Command classification used by `detectModelType`: does the command
declare a (truthy) model identifier? -/
def declaresModel (cmd : JsCommand) : Bool :=
  cmd.type = "start_processing" &&
    (match cmd.data with
     | some d =>
       (match d.model with
        | some m => !(m = "")
        | none => false)
     | none => false)

/-! ## Concrete fixtures used in counterexamples and witnesses -/

def getModelsCommand : JsCommand := { type := "get_models", data := none }

/-- A live, ready worker with nothing pending: the state right after startup
completes. -/
def stLiveReady : PyState :=
  { pyProc := true, pythonReady := true, isShuttingDown := false, commandQueue := [], commandCounter := 0, pendingCommands := [], currentModelType := "retinaface" }

/-- A live, ready worker with one command (id 1, callback 5) awaiting its
response. -/
def stOnePending : PyState :=
  { pyProc := true, pythonReady := true, isShuttingDown := false, commandQueue := [], commandCounter := 1, pendingCommands := [(1, 5)], currentModelType := "retinaface" }

def chunkFirst : List Char := ("\x7b\"type\":\"re").data

def chunkSecond : List Char := ("ady\"\x7d\n").data

def readyJson : Json := Json.obj [(("type").data, Json.str ("ready").data)]

/-- Re-entrant enqueue fixture: processing the entry with callback 1 enqueues
one further entry, which itself enqueues nothing. -/
def reentrantOnce : (JsCommand × CbId) → List (JsCommand × CbId) :=
  fun e => if e.2 = 1 then [(getModelsCommand, 4)] else []

def loadModelCommand : JsCommand := { type := "load_model", data := none }

def getResultsCommand : JsCommand := { type := "get_results", data := none }

def stopCommand : JsCommand := { type := "stop_processing", data := none }

/-- Event sequence for the queue-then-flush scenario in which the first of
three commands sent before readiness carries no callback: `load_model`
without a callback, then `get_results` and `stop_processing` with callbacks,
then the `ready` message. -/
def flushScenario : List Ev :=
  [Ev.send loadModelCommand none true,
   Ev.send getResultsCommand (some 2) true,
   Ev.send stopCommand (some 3) true,
   Ev.msg PyMessage.ready []]

/-- Relation between the counter value before a step, the state after it, and
the actions it emitted: the counter never decreases, the ids written are
strictly increasing, and every written id lies strictly above the old counter
and at most at the new one. -/
def CounterOK (c0 : Int) (st1 : PyState) (acts : List Action) : Prop :=
  c0 ≤ st1.commandCounter ∧
  List.Pairwise (fun a b => a < b) (writeIds acts) ∧
  ∀ i ∈ writeIds acts, c0 < i ∧ i ≤ st1.commandCounter

/-- Provenance of the pending table across one step: every key afterwards was
already present before, or belongs to a command written during the step. -/
def PendOK (p0 : List (Int × CbId)) (st1 : PyState) (acts : List Action) : Prop :=
  ∀ k ∈ keysOf st1.pendingCommands, k ∈ keysOf p0 ∨ k ∈ writeIds acts

/-! ## Invariant machinery: the correlation counter and the pending table -/

theorem writeIds_append (a b : List Action) :
    writeIds (a ++ b) = writeIds a ++ writeIds b := by
  simp [writeIds]

theorem counterOK_no_writes {c0 : Int} {st : PyState} {acts : List Action}
    (hc : c0 ≤ st.commandCounter) (hw : writeIds acts = []) :
    CounterOK c0 st acts := by
  refine ⟨hc, ?_, ?_⟩ <;> simp [hw]

theorem counterOK_trans {c0 : Int} {stm st2 : PyState} {a1 a2 : List Action}
    (h1 : CounterOK c0 stm a1) (h2 : CounterOK stm.commandCounter st2 a2) :
    CounterOK c0 st2 (a1 ++ a2) := by
  obtain ⟨hc1, hp1, hb1⟩ := h1
  obtain ⟨hc2, hp2, hb2⟩ := h2
  refine ⟨le_trans hc1 hc2, ?_, ?_⟩
  · rw [writeIds_append, List.pairwise_append]
    refine ⟨hp1, hp2, ?_⟩
    intro x hx y hy
    exact lt_of_le_of_lt (hb1 x hx).2 (hb2 y hy).1
  · intro i hi
    rw [writeIds_append, List.mem_append] at hi
    rcases hi with hi | hi
    · exact ⟨(hb1 i hi).1, le_trans (hb1 i hi).2 hc2⟩
    · exact ⟨lt_of_le_of_lt hc1 (hb2 i hi).1, (hb2 i hi).2⟩

theorem sendCore_counterOK (st : PyState) (cmd : JsCommand) (cb : Option CbId)
    (w : Bool) :
    CounterOK st.commandCounter (sendCore st cmd cb w).1 (sendCore st cmd cb w).2 := by
  unfold sendCore
  by_cases h : (st.pyProc && st.pythonReady) = true
  · rcases cb with _ | cb <;> cases w <;>
      simp [h, CounterOK, writeIds]
  · rcases cb with _ | cb <;> simp [h, CounterOK, writeIds]

theorem restart_keeps_live (st : PyState) (req : String) (hp : st.pyProc = true)
    (hr : st.pythonReady = true) :
    (restartPythonIfNeeded st req).1.pyProc = true ∧
    (restartPythonIfNeeded st req).1.pythonReady = true ∧
    (restartPythonIfNeeded st req).1.pendingCommands = st.pendingCommands ∧
    (restartPythonIfNeeded st req).1.commandCounter = st.commandCounter := by
  unfold restartPythonIfNeeded
  split
  · exact ⟨hp, hr, rfl, rfl⟩
  · exact ⟨rfl, rfl, rfl, rfl⟩

theorem restart_preserves (st : PyState) (req : String) :
    (restartPythonIfNeeded st req).1.commandCounter = st.commandCounter ∧
    (restartPythonIfNeeded st req).1.pendingCommands = st.pendingCommands := by
  unfold restartPythonIfNeeded
  split
  · exact ⟨rfl, rfl⟩
  · exact ⟨rfl, rfl⟩

theorem sendCommandToPython_counterOK (st : PyState) (cmd : JsCommand)
    (cb : Option CbId) (w : Bool) :
    CounterOK st.commandCounter (sendCommandToPython st cmd cb w).1
      (sendCommandToPython st cmd cb w).2 := by
  simp only [sendCommandToPython]
  by_cases h : detectModelType cmd st.currentModelType ≠ st.currentModelType
  · rw [if_pos h]
    have hc := (restart_preserves st (detectModelType cmd st.currentModelType)).1
    have h2 := sendCore_counterOK
      (restartPythonIfNeeded st (detectModelType cmd st.currentModelType)).1 cmd cb w
    rw [hc] at h2
    exact h2
  · rw [if_neg h]
    exact sendCore_counterOK st cmd cb w

theorem drainQueue_counterOK (entries : List (JsCommand × CbId)) :
    ∀ (st : PyState) (ws : List Bool),
      CounterOK st.commandCounter (drainQueue st entries ws).1
        (drainQueue st entries ws).2 := by
  induction entries with
  | nil =>
    intro st ws
    exact counterOK_no_writes le_rfl rfl
  | cons e rest ih =>
    intro st ws
    simp only [drainQueue]
    exact counterOK_trans
      (sendCommandToPython_counterOK st e.1 (some e.2) (ws.headD true))
      (ih (sendCommandToPython st e.1 (some e.2) (ws.headD true)).1 ws.tail)

theorem handleCloseEvent_no_writes (st : PyState) (code : Option Int)
    (appQuitting : Bool) : writeIds (handleCloseEvent st code appQuitting).2 = [] := by
  unfold handleCloseEvent
  rcases code with _ | c
  · rfl
  · simp only
    split
    · rfl
    · rfl

theorem handlePythonMessage_counterOK (st : PyState) (m : PyMessage)
    (ws : List Bool) :
    CounterOK st.commandCounter (handlePythonMessage st m ws).1
      (handlePythonMessage st m ws).2 := by
  cases m with
  | ready =>
    simp only [handlePythonMessage]
    by_cases h : st.pyProc = true
    · rw [if_pos h]
      exact drainQueue_counterOK st.commandQueue
        { st with pythonReady := true, commandQueue := [] } ws
    · rw [if_neg h]
      exact counterOK_no_writes le_rfl rfl
  | response id =>
    unfold handlePythonMessage
    rcases id with _ | n
    · exact counterOK_no_writes le_rfl rfl
    · simp only
      split
      · rcases hg : mapGet st.pendingCommands n with _ | cb <;> simp only [hg]
        · exact counterOK_no_writes le_rfl rfl
        · exact counterOK_no_writes le_rfl rfl
      · exact counterOK_no_writes le_rfl rfl
  | event => exact counterOK_no_writes le_rfl rfl
  | errorMsg => exact counterOK_no_writes le_rfl rfl

theorem step_counterOK (st : PyState) (e : Ev) :
    CounterOK st.commandCounter (step st e).1 (step st e).2 := by
  cases e with
  | send cmd cb w => exact sendCommandToPython_counterOK st cmd cb w
  | msg m ws => exact handlePythonMessage_counterOK st m ws
  | closed code q =>
    exact counterOK_no_writes le_rfl (handleCloseEvent_no_writes st code q)

theorem run_counterOK (evs : List Ev) :
    ∀ st : PyState,
      CounterOK st.commandCounter (run st evs).1 (run st evs).2 := by
  induction evs with
  | nil => intro st; exact counterOK_no_writes le_rfl rfl
  | cons e rest ih =>
    intro st
    simp only [run]
    exact counterOK_trans (step_counterOK st e) (ih (step st e).1)

/-! Pending-table provenance: every key of the pending-command table was put
there for a write that actually succeeded. -/

theorem keysOf_mapSet (m : List (Int × CbId)) (k : Int) (v : CbId) :
    ∀ x ∈ keysOf (mapSet m k v), x ∈ keysOf m ∨ x = k := by
  intro x hx
  unfold mapSet at hx
  split at hx
  · simp only [keysOf, List.mem_map] at hx
    obtain ⟨p, hp, hpx⟩ := hx
    obtain ⟨q, hq, hqp⟩ := hp
    by_cases hk : q.1 = k
    · right
      rw [← hpx, ← hqp]
      simp [hk]
    · left
      rw [← hpx, ← hqp]
      simp only [hk, if_false]
      exact List.mem_map.mpr ⟨q, hq, rfl⟩
  · simp only [keysOf, List.map_append, List.mem_append, List.map_cons,
      List.map_nil, List.mem_singleton] at hx
    rcases hx with hx | hx
    · exact Or.inl hx
    · exact Or.inr hx

theorem keysOf_mapDelete (m : List (Int × CbId)) (k : Int) :
    ∀ x ∈ keysOf (mapDelete m k), x ∈ keysOf m := by
  intro x hx
  unfold mapDelete at hx
  simp only [keysOf, List.mem_map] at hx ⊢
  obtain ⟨p, hp, hpx⟩ := hx
  exact ⟨p, (List.mem_filter.mp hp).1, hpx⟩

theorem pendOK_unchanged {p0 : List (Int × CbId)} {st1 : PyState}
    {acts : List Action} (h : st1.pendingCommands = p0) :
    PendOK p0 st1 acts := by
  intro k hk
  rw [h] at hk
  exact Or.inl hk

theorem pendOK_trans {p0 : List (Int × CbId)} {stm st2 : PyState}
    {a1 a2 : List Action} (h1 : PendOK p0 stm a1)
    (h2 : PendOK stm.pendingCommands st2 a2) :
    PendOK p0 st2 (a1 ++ a2) := by
  intro k hk
  rw [writeIds_append, List.mem_append]
  rcases h2 k hk with h | h
  · rcases h1 k h with h' | h'
    · exact Or.inl h'
    · exact Or.inr (Or.inl h')
  · exact Or.inr (Or.inr h)

theorem sendCore_pendOK (st : PyState) (cmd : JsCommand) (cb : Option CbId)
    (w : Bool) :
    PendOK st.pendingCommands (sendCore st cmd cb w).1 (sendCore st cmd cb w).2 := by
  unfold sendCore
  by_cases h : (st.pyProc && st.pythonReady) = true
  · rcases cb with _ | cb <;> cases w <;> simp only [h, Bool.not_true, if_false]
    · exact pendOK_unchanged rfl
    · exact pendOK_unchanged rfl
    · exact pendOK_unchanged rfl
    · intro k hk
      rcases keysOf_mapSet st.pendingCommands (st.commandCounter + 1) cb k hk with h' | h'
      · exact Or.inl h'
      · exact Or.inr (by simp [writeIds, h'])
  · rcases cb with _ | cb <;> simp only [h, Bool.not_false, if_true]
    · exact pendOK_unchanged rfl
    · exact pendOK_unchanged rfl

theorem sendCommandToPython_pendOK (st : PyState) (cmd : JsCommand)
    (cb : Option CbId) (w : Bool) :
    PendOK st.pendingCommands (sendCommandToPython st cmd cb w).1
      (sendCommandToPython st cmd cb w).2 := by
  simp only [sendCommandToPython]
  by_cases h : detectModelType cmd st.currentModelType ≠ st.currentModelType
  · rw [if_pos h]
    have hp := (restart_preserves st (detectModelType cmd st.currentModelType)).2
    have h2 := sendCore_pendOK
      (restartPythonIfNeeded st (detectModelType cmd st.currentModelType)).1 cmd cb w
    rw [hp] at h2
    exact h2
  · rw [if_neg h]
    exact sendCore_pendOK st cmd cb w

theorem drainQueue_pendOK (entries : List (JsCommand × CbId)) :
    ∀ (st : PyState) (ws : List Bool),
      PendOK st.pendingCommands (drainQueue st entries ws).1
        (drainQueue st entries ws).2 := by
  induction entries with
  | nil => intro st ws; exact pendOK_unchanged rfl
  | cons e rest ih =>
    intro st ws
    simp only [drainQueue]
    exact pendOK_trans
      (sendCommandToPython_pendOK st e.1 (some e.2) (ws.headD true))
      (ih (sendCommandToPython st e.1 (some e.2) (ws.headD true)).1 ws.tail)

theorem handlePythonMessage_pendOK (st : PyState) (m : PyMessage)
    (ws : List Bool) :
    PendOK st.pendingCommands (handlePythonMessage st m ws).1
      (handlePythonMessage st m ws).2 := by
  cases m with
  | ready =>
    simp only [handlePythonMessage]
    by_cases h : st.pyProc = true
    · rw [if_pos h]
      exact drainQueue_pendOK st.commandQueue
        { st with pythonReady := true, commandQueue := [] } ws
    · rw [if_neg h]
      exact pendOK_unchanged rfl
  | response id =>
    unfold handlePythonMessage
    rcases id with _ | n
    · exact pendOK_unchanged rfl
    · simp only
      split
      · rcases hg : mapGet st.pendingCommands n with _ | cb <;> simp only [hg] <;>
        · intro k hk
          exact Or.inl (keysOf_mapDelete st.pendingCommands n k hk)
      · exact pendOK_unchanged rfl
  | event => exact pendOK_unchanged rfl
  | errorMsg => exact pendOK_unchanged rfl

theorem step_pendOK (st : PyState) (e : Ev) :
    PendOK st.pendingCommands (step st e).1 (step st e).2 := by
  cases e with
  | send cmd cb w => exact sendCommandToPython_pendOK st cmd cb w
  | msg m ws => exact handlePythonMessage_pendOK st m ws
  | closed code q => exact pendOK_unchanged rfl

theorem run_pendOK (evs : List Ev) :
    ∀ st : PyState,
      PendOK st.pendingCommands (run st evs).1 (run st evs).2 := by
  induction evs with
  | nil => intro st; exact pendOK_unchanged rfl
  | cons e rest ih =>
    intro st
    simp only [run]
    exact pendOK_trans (step_pendOK st e) (ih (step st e).1)

/-! ## C1 — pending callbacks at worker exit -/

/-- C1 (counterexample): with one command pending, the `close` handler leaves
the pending-command table non-empty, contradicting the claim that every
remaining entry is resolved and the table is empty afterward. -/
theorem close_pending_not_flushed :
    ¬ (handleCloseEvent stOnePending (some 1) false).1.pendingCommands = [] := by
  decide

/-- C1 (amended): when the worker process exits unexpectedly, the `close`
handler only clears the readiness flag and the process handle (and at most
shows an error dialog); it invokes no pending callback and leaves every entry
of the pending-command table in place, so pending callbacks hang
indefinitely. -/
theorem close_leaves_pending_hanging (st : PyState) (code : Option Int)
    (appQuitting : Bool) :
    (handleCloseEvent st code appQuitting).1.pendingCommands = st.pendingCommands ∧
    (handleCloseEvent st code appQuitting).1.pythonReady = false ∧
    (handleCloseEvent st code appQuitting).1.pyProc = false ∧
    ∀ a ∈ (handleCloseEvent st code appQuitting).2, a = Action.showDialog := by
  unfold handleCloseEvent
  refine ⟨rfl, rfl, rfl, ?_⟩
  intro a ha
  rcases code with _ | c
  · simp at ha
  · simp only at ha
    split at ha
    · simpa using ha
    · simp at ha

/-! ## C2 — no reassembly of messages split across chunks -/

/-- C2 (counterexample): feeding the framer the two chunks of a split
`ready` message does not yield the parsed `ready` message (it yields no
message at all), refuting the claimed partial-line reassembly. -/
theorem framer_split_message_lost :
    ¬ framerChunks [chunkFirst, chunkSecond] = [readyJson] := by
  have h : framerChunks [chunkFirst, chunkSecond] = [] := by rfl
  rw [h]
  intro hc
  exact List.noConfusion hc

/-- C2 (amended): the stdout handler keeps no buffer between chunks, so a
message split across two chunk boundaries is lost entirely — the two chunks
produce zero parsed messages (the first fragment fails to parse and is
dropped, the second is discarded as non-JSON noise) — while the same message
arriving whole in one chunk parses to exactly one message. -/
theorem framer_drops_split_message :
    framerChunks [chunkFirst, chunkSecond] = [] ∧
    processChunk ("\x7b\"type\":\"ready\"\x7d\n").data = [readyJson] := by
  exact ⟨rfl, rfl⟩

/-! ## C3 — shutdown escalation never happens -/

/-- C3 (code bug): `exitPyProc` nulls the module-level `pyProc` variable in
its synchronous body, before either escalation timer fires; both timers guard
on that same variable, so for every state and every child `killed` flag the
list of kill signals issued is empty — the SIGTERM/SIGKILL escalation that
the code's own comments describe can never execute.  On a live ready worker
the best-effort `exit` command is still written. -/
theorem exitPyProc_never_signals :
    (∀ (st : PyState) (killed : Bool), (exitPyProc st killed).2.2 = []) ∧
    (exitPyProc stLiveReady false).2.1 = [Action.write exitCommand 1] := by
  constructor
  · intro st killed
    unfold exitPyProc
    split
    · rfl
    · rfl
  · decide

/-! ## C4 — commands without callbacks are dropped, not queued -/

/-- C4 (counterexample): a command passed to `sendCommandToPython` without a
callback while the worker is not ready is not appended to the command queue
(the queue stays empty), refuting the claim that the pair is appended whether
or not a callback was supplied. -/
theorem send_no_callback_dropped :
    initState.pythonReady = false ∧
    ¬ (sendCommandToPython initState getModelsCommand none true).1.commandQueue =
        initState.commandQueue ++ [(getModelsCommand, 0)] := by
  constructor
  · rfl
  · decide

/-- C4 (amended): for a command that requires no environment switch and is
passed while the worker is not ready, the call returns immediately with no
transmission; the `{command, callback}` pair is appended to the command queue
exactly when a callback was supplied — a command sent without a callback is
silently dropped. -/
theorem send_not_ready_queues_iff_callback (st : PyState) (cmd : JsCommand)
    (cb : CbId) (writeOk : Bool)
    (hm : detectModelType cmd st.currentModelType = st.currentModelType)
    (hnr : (st.pyProc && st.pythonReady) = false) :
    sendCommandToPython st cmd (some cb) writeOk =
      ({ st with commandQueue := st.commandQueue ++ [(cmd, cb)] }, []) ∧
    sendCommandToPython st cmd none writeOk = (st, []) := by
  unfold sendCommandToPython
  rw [hm]
  simp only [ne_eq, not_true_eq_false, if_false]
  unfold sendCore
  rw [hnr]
  exact ⟨rfl, rfl⟩

/-- C4 (witness for the amended theorem). -/
theorem send_not_ready_queues_iff_callback_app :
    detectModelType getModelsCommand initState.currentModelType =
        initState.currentModelType ∧
    (initState.pyProc && initState.pythonReady) = false ∧
    sendCommandToPython initState getModelsCommand (some 3) true =
      ({ initState with commandQueue := [(getModelsCommand, 3)] }, []) ∧
    sendCommandToPython initState getModelsCommand none true = (initState, []) := by
  refine ⟨by decide, by decide, ?_, ?_⟩
  · exact (send_not_ready_queues_iff_callback initState getModelsCommand 3 true
      (by decide) (by decide)).1
  · exact (send_not_ready_queues_iff_callback initState getModelsCommand 3 true
      (by decide) (by decide)).2

/-! ## C7 — unmatched responses are dropped -/

/-- C7: delivering a response whose correlation id is not in the
pending-command table (never sent, or already resolved and removed) leaves
the state — in particular every other table entry — unchanged and invokes no
callback; the dispatcher simply drops it. -/
theorem unmatched_response_dropped (st : PyState) (n : Int) (ws : List Bool)
    (h : mapHas st.pendingCommands n = false) :
    handlePythonMessage st (PyMessage.response (some n)) ws = (st, []) := by
  simp [handlePythonMessage, h]

/-- C7 (witness): dropping a response with unsent id 2 while id 1 is
pending. -/
theorem unmatched_response_dropped_app :
    mapHas stOnePending.pendingCommands 2 = false ∧
    handlePythonMessage stOnePending (PyMessage.response (some 2)) [] =
      (stOnePending, []) := by
  exact ⟨by decide, unmatched_response_dropped stOnePending 2 [] (by decide)⟩

/-! ## C5 — correlation ids are unique and strictly increasing -/

/-- C5: over every sequence of dispatcher events from the initial state,
the correlation ids carried by the transmitted commands are strictly
increasing in transmission order, and hence no id is ever reused within the
process lifetime. -/
theorem correlation_ids_unique_increasing (evs : List Ev) :
    List.Pairwise (fun a b => a < b) (writeIds (run initState evs).2) ∧
    (writeIds (run initState evs).2).Nodup := by
  have h := run_counterOK evs initState
  exact ⟨h.2.1, h.2.1.imp fun hlt => ne_of_lt hlt⟩

/-! ## C8 — failed writes and table provenance -/

/-- C8: if writing the serialized command to the worker's stdin throws, the
supplied callback is invoked synchronously exactly once with an error (the
step's action list is exactly that one invocation) and no pending-table entry
is created; moreover, over every event sequence from the initial state, every
correlation id present in the pending-command table belongs to a command that
was actually transmitted. -/
theorem write_failure_callback_and_provenance :
    (∀ (st : PyState) (cmd : JsCommand) (cb : CbId),
      st.pyProc = true → st.pythonReady = true →
      (sendCommandToPython st cmd (some cb) false).2 = [Action.invokeErr cb] ∧
      (sendCommandToPython st cmd (some cb) false).1.pendingCommands =
        st.pendingCommands) ∧
    (∀ (evs : List Ev) (k : Int),
      k ∈ keysOf (run initState evs).1.pendingCommands →
      k ∈ writeIds (run initState evs).2) := by
  constructor
  · intro st cmd cb hp hr
    have key : ∀ st1 : PyState, st1.pyProc = true → st1.pythonReady = true →
        st1.pendingCommands = st.pendingCommands →
        (sendCore st1 cmd (some cb) false).2 = [Action.invokeErr cb] ∧
        (sendCore st1 cmd (some cb) false).1.pendingCommands =
          st.pendingCommands := by
      intro st1 h1 h2 h3
      unfold sendCore
      rw [h1, h2]
      simp [h3]
    simp only [sendCommandToPython]
    by_cases hd : detectModelType cmd st.currentModelType ≠ st.currentModelType
    · rw [if_pos hd]
      have hl := restart_keeps_live st (detectModelType cmd st.currentModelType) hp hr
      exact key _ hl.1 hl.2.1 hl.2.2.1
    · rw [if_neg hd]
      exact key st hp hr rfl
  · intro evs k hk
    rcases run_pendOK evs initState k hk with h | h
    · simp [initState, keysOf] at h
    · exact h

/-- C8 (witness): a failing write on a live ready worker, and the provenance
of the single table entry created by a successful send. -/
theorem write_failure_callback_and_provenance_app :
    stLiveReady.pyProc = true ∧ stLiveReady.pythonReady = true ∧
    (sendCommandToPython stLiveReady getModelsCommand (some 7) false).2 =
      [Action.invokeErr 7] ∧
    (sendCommandToPython stLiveReady getModelsCommand (some 7) false).1.pendingCommands =
      stLiveReady.pendingCommands ∧
    (1 : Int) ∈ keysOf
      (run initState [Ev.msg PyMessage.ready [], Ev.send getModelsCommand (some 7) true]).1.pendingCommands ∧
    (1 : Int) ∈ writeIds
      (run initState [Ev.msg PyMessage.ready [], Ev.send getModelsCommand (some 7) true]).2 := by
  refine ⟨rfl, rfl, ?_, ?_, by decide, ?_⟩
  · exact (write_failure_callback_and_provenance.1 stLiveReady getModelsCommand 7 rfl rfl).1
  · exact (write_failure_callback_and_provenance.1 stLiveReady getModelsCommand 7 rfl rfl).2
  · exact write_failure_callback_and_provenance.2
      [Ev.msg PyMessage.ready [], Ev.send getModelsCommand (some 7) true] 1 (by decide)

/-! ## C10 — ids start at 1 and the truthiness guard is safe -/

/-- C10: the counter starts at 0 and is pre-incremented, so every transmitted
command carries an id of at least 1 (in particular a truthy, non-zero id), and
a response whose `id` field is absent, null, or 0 invokes no callback and
leaves the state — in particular the pending-command table — unchanged. -/
theorem truthiness_guard_safe :
    (∀ (evs : List Ev) (i : Int),
      i ∈ writeIds (run initState evs).2 → 1 ≤ i ∧ ¬ i = 0) ∧
    (∀ (st : PyState) (ws : List Bool),
      handlePythonMessage st (PyMessage.response none) ws = (st, [])) ∧
    (∀ (st : PyState) (ws : List Bool),
      handlePythonMessage st (PyMessage.response (some 0)) ws = (st, [])) := by
  refine ⟨?_, ?_, ?_⟩
  · intro evs i hi
    have h := ((run_counterOK evs initState).2.2 i hi).1
    have h0 : (0 : Int) < i := h
    constructor
    · omega
    · omega
  · intro st ws
    rfl
  · intro st ws
    simp [handlePythonMessage]

/-- C10 (witness): the first transmitted command carries id 1, which is at
least 1 and non-zero. -/
theorem truthiness_guard_safe_app :
    (1 : Int) ∈ writeIds
      (run initState [Ev.msg PyMessage.ready [], Ev.send getModelsCommand (some 7) true]).2 ∧
    (1 ≤ (1 : Int) ∧ ¬ (1 : Int) = 0) := by
  refine ⟨by decide, ?_⟩
  exact truthiness_guard_safe.1
    [Ev.msg PyMessage.ready [], Ev.send getModelsCommand (some 7) true] 1 (by decide)

/-! ## C6 — queue-then-flush order -/

theorem drainLoop_simple (re : (JsCommand × CbId) → List (JsCommand × CbId)) :
    ∀ (t : List (JsCommand × CbId)) (n : Nat), (∀ e ∈ t, re e = []) →
      t.length ≤ n → drainLoop re n t = t := by
  intro t
  induction t with
  | nil => intro n _ _; cases n <;> rfl
  | cons e t' ih =>
    intro n ht hn
    cases n with
    | zero => simp at hn
    | succ m =>
      have he : re e = [] := ht e (by simp)
      have hstep : drainLoop re (m + 1) (e :: t') =
          e :: drainLoop re m (t' ++ re e) := rfl
      rw [hstep, he, List.append_nil,
        ih m (fun x hx => ht x (by simp [hx])) (by simp at hn; omega)]

theorem drainLoop_flush (re : (JsCommand × CbId) → List (JsCommand × CbId)) :
    ∀ (q1 t : List (JsCommand × CbId)),
      (∀ e ∈ q1, ∀ d ∈ re e, re d = []) → (∀ e ∈ t, re e = []) →
      drainLoop re (q1.length + t.length + (q1.flatMap re).length) (q1 ++ t) =
        q1 ++ t ++ q1.flatMap re := by
  intro q1
  induction q1 with
  | nil =>
    intro t h1 h2
    simp only [List.length_nil, List.flatMap_nil, List.nil_append, List.append_nil,
      Nat.zero_add, Nat.add_zero]
    exact drainLoop_simple re t t.length h2 le_rfl
  | cons e q1' ih =>
    intro t h1 h2
    have he : ∀ d ∈ re e, re d = [] := h1 e (by simp)
    have hfuel : (e :: q1').length + t.length + ((e :: q1').flatMap re).length =
        (q1'.length + (t ++ re e).length + (q1'.flatMap re).length) + 1 := by
      simp [List.length_append]
      omega
    rw [hfuel]
    have hstep : drainLoop re
        ((q1'.length + (t ++ re e).length + (q1'.flatMap re).length) + 1)
        ((e :: q1') ++ t) =
        e :: drainLoop re
          (q1'.length + (t ++ re e).length + (q1'.flatMap re).length)
          ((q1' ++ t) ++ re e) := rfl
    rw [hstep, List.append_assoc]
    rw [ih (t ++ re e) (fun x hx => h1 x (by simp [hx]))
      (fun x hx => by
        rcases List.mem_append.mp hx with h | h
        · exact h2 x h
        · exact he x h)]
    simp [List.flatMap_cons, List.append_assoc]

/-- C6 (counterexample): the claimed order fails for arbitrary sends.  With
C1 = `load_model` sent without a callback and C2, C3 sent with callbacks
while the worker is not ready, the worker's input stream after `ready`
carries only C2 and C3 (ids 1 and 2): C1 was dropped by the `if (callback)`
guard and is never transmitted, so the stream is not C1, C2, C3. -/
theorem queue_flush_not_claimed_order :
    (run initState flushScenario).2 =
      [Action.notifyWindows, Action.write getResultsCommand 1,
        Action.write stopCommand 2] ∧
    ¬ (run initState flushScenario).2 =
      [Action.notifyWindows, Action.write loadModelCommand 1,
        Action.write getResultsCommand 2, Action.write stopCommand 3] := by
  constructor
  · decide
  · decide

/-- C6 (amended): if commands C1, C2, C3 are each sent with a callback while
the worker is not ready, and none of them requires an environment switch
(commands without a callback are dropped, and commands declaring the other
model family bypass the queue via a restart), then once `ready` arrives the
worker receives them on its input stream in exactly the order C1, C2, C3
with consecutive correlation ids; and in the drain loop, any entries
enqueued re-entrantly while an entry is being processed are appended to the
tail and are still processed within the same drain pass, after all earlier
entries (the hypothesis only rules out unbounded re-entrant cascades, so the
loop terminates within the stated number of iterations). -/
theorem queued_commands_flushed_in_order :
    (∀ (c1 c2 c3 : JsCommand) (b1 b2 b3 : CbId),
      detectModelType c1 "retinaface" = "retinaface" →
      detectModelType c2 "retinaface" = "retinaface" →
      detectModelType c3 "retinaface" = "retinaface" →
      (run initState [Ev.send c1 (some b1) true, Ev.send c2 (some b2) true,
          Ev.send c3 (some b3) true, Ev.msg PyMessage.ready []]).2 =
        [Action.notifyWindows, Action.write c1 1, Action.write c2 2,
          Action.write c3 3]) ∧
    (∀ (re : (JsCommand × CbId) → List (JsCommand × CbId))
        (q : List (JsCommand × CbId)),
      (∀ e ∈ q, ∀ d ∈ re e, re d = []) →
      drainLoop re (q.length + (q.flatMap re).length) q = q ++ q.flatMap re) := by
  constructor
  · intro c1 c2 c3 b1 b2 b3 h1 h2 h3
    simp [run, step, sendCommandToPython, sendCore, drainQueue, handlePythonMessage,
      initState, mapSet, mapHas, h1, h2, h3]
  · intro re q h
    have hf := drainLoop_flush re q [] h (by intro e he; simp at he)
    simpa using hf

/-- C6 (witness): three concrete queued commands flushed in order, and a
two-entry drain in which the first entry re-entrantly enqueues a third that
is processed at the tail of the same pass. -/
theorem queued_commands_flushed_in_order_app :
    (detectModelType getModelsCommand "retinaface" = "retinaface" ∧
     (run initState [Ev.send getModelsCommand (some 1) true,
         Ev.send getModelsCommand (some 2) true,
         Ev.send getModelsCommand (some 3) true, Ev.msg PyMessage.ready []]).2 =
       [Action.notifyWindows, Action.write getModelsCommand 1,
         Action.write getModelsCommand 2, Action.write getModelsCommand 3]) ∧
    ((∀ e ∈ [(getModelsCommand, 1), (getModelsCommand, 2)],
        ∀ d ∈ reentrantOnce e, reentrantOnce d = []) ∧
     drainLoop reentrantOnce
        ([(getModelsCommand, 1), (getModelsCommand, 2)].length +
          ([(getModelsCommand, 1), (getModelsCommand, 2)].flatMap reentrantOnce).length)
        [(getModelsCommand, 1), (getModelsCommand, 2)] =
       [(getModelsCommand, 1), (getModelsCommand, 2)] ++
         [(getModelsCommand, 1), (getModelsCommand, 2)].flatMap reentrantOnce) := by
  refine ⟨⟨by decide, ?_⟩, by decide, ?_⟩
  · exact queued_commands_flushed_in_order.1 getModelsCommand getModelsCommand
      getModelsCommand 1 2 3 (by decide) (by decide) (by decide)
  · exact queued_commands_flushed_in_order.2 reentrantOnce
      [(getModelsCommand, 1), (getModelsCommand, 2)] (by decide)

/-! ## C9 — profile resolution -/

/-- C9: a `start_processing` command declaring a (truthy) model identifier
selects `'retinaface'` exactly when the lowercased identifier contains the
substring `'retinaface'` and `'yolo'` otherwise; a command not declaring a
model keeps the current profile; and when the required profile equals the
current one and the worker is ready, `restartPythonIfNeeded` performs no
restart and leaves the state untouched. -/
theorem profile_resolution_correct :
    (∀ (m cur : String), ¬ m = "" →
      detectModelType { type := "start_processing", data := some { model := some m } } cur =
        (if jsIncludes (jsToLower m) "retinaface" then "retinaface" else "yolo")) ∧
    (∀ (cmd : JsCommand) (cur : String), declaresModel cmd = false →
      detectModelType cmd cur = cur) ∧
    (∀ (st : PyState) (req : String), req = st.currentModelType →
      st.pythonReady = true → restartPythonIfNeeded st req = (st, false)) := by
  refine ⟨?_, ?_, ?_⟩
  · intro m cur hm
    unfold detectModelType
    simp [hm]
  · intro cmd cur hd
    rcases cmd with ⟨ty, data⟩
    by_cases hty : ty = "start_processing"
    · subst hty
      rcases data with _ | ⟨model⟩
      · simp [detectModelType]
      · rcases model with _ | m
        · simp [detectModelType]
        · have hm : m = "" := by simpa [declaresModel] using hd
          simp [detectModelType, hm]
    · simp [detectModelType, hty]
  · intro st req hr hready
    unfold restartPythonIfNeeded
    simp [hr, hready]

/-- C9 (witness): concrete model identifiers of both families, a command with
no model, and a ready worker already on the required profile. -/
theorem profile_resolution_correct_app :
    ¬ ("RetinaFace-R50" : String) = "" ∧
    detectModelType { type := "start_processing", data := some { model := some "RetinaFace-R50" } } "yolo" =
      (if jsIncludes (jsToLower "RetinaFace-R50") "retinaface" then "retinaface" else "yolo") ∧
    declaresModel getModelsCommand = false ∧
    detectModelType getModelsCommand "yolo" = "yolo" ∧
    ("retinaface" : String) = stLiveReady.currentModelType ∧
    stLiveReady.pythonReady = true ∧
    restartPythonIfNeeded stLiveReady "retinaface" = (stLiveReady, false) := by
  refine ⟨by decide, ?_, by decide, ?_, by decide, by decide, ?_⟩
  · exact profile_resolution_correct.1 "RetinaFace-R50" "yolo" (by decide)
  · exact profile_resolution_correct.2.1 getModelsCommand "yolo" (by decide)
  · exact profile_resolution_correct.2.2 stLiveReady "retinaface" (by decide) (by decide)

end FaceApp

